import Mathlib

/-!
Verification of the `url-shortener` service (Rust/actix-web + MongoDB).

Shallow embedding: the MongoDB collections become Lean lists of records,
each handler becomes a pure function from the store (plus the data the
framework injects: claims, query/path parameters, the current timestamp,
and the results of library calls such as the QR renderer or bcrypt, which
are passed in as function parameters).  `find_one` is `List.find?`,
`update_one` / `find_one_and_update` update the first matching document,
`delete_one` erases the first matching document, `delete_many` filters,
and `insert_one` appends.

Sources embedded:
  src/models/role.rs, src/models/url.rs, src/models/qr_code.rs,
  src/models/url_visitor.rs, src/models/user.rs,
  src/handlers/url_handlers.rs, src/handlers/qr_handlers.rs,
  src/handlers/user_handlers.rs, src/middlewares/authmw.rs.
-/

namespace UrlShortener

/-- `Role` enum from src/models/role.rs. -/
inductive Role
  | UrlCreator | UrlViewer | UrlManager
  | QrCreator | QrViewer | QrManager
  | AnalyticsViewer | AnalyticsManager
  | UserViewer | UserManager
  | SystemAdmin
  | SuperUser
  deriving DecidableEq

/-- `TargetType` enum from src/models/qr_code.rs. -/
inductive TargetType
  | Original
  | Shortened
  deriving DecidableEq

/-- HTTP status semantics used by the handlers and middlewares.  We only
distinguish the statuses the claims talk about. -/
inductive HttpStatus
  | ok | created | found | noContent
  | badRequest | unauthorized | forbidden | notFound | conflict | gone
  | internalError
  deriving DecidableEq

/-- `ShortenedUrl` document (src/models/url.rs).  `id` models the Mongo
`_id` (`None` before insertion, assigned by the driver on insert); the
handlers in src/handlers/url_handlers.rs additionally read and write a
`user_id` owner field, which is included here. -/
structure ShortenedUrl where
  id : Option Nat
  original_url : String
  short_code : String
  created_at : Option Int
  expires_at : Option Int
  qr_code_svg : Option String
  qr_code_generated_at : Option Int
  clicks : Int
  unique_visitors : List String
  user_id : Option String
  deriving DecidableEq

/-- `ShortenedUrl::new` as called by `create_short_url`
(src/handlers/url_handlers.rs lines 59-64): records `created_at = now`,
`expires_at = now + days·24·60·60·1000` when an expiry is requested, zero
clicks and the creator's user id.  `now` stands for
`chrono::Utc::now().timestamp_millis()`. -/
def ShortenedUrl.new (original_url short_code : String)
    (expires_in_days : Option Nat) (user_id : Option String) (now : Int) :
    ShortenedUrl :=
  { id := none
    original_url := original_url
    short_code := short_code
    created_at := some now
    expires_at := expires_in_days.map (fun days => now + (days : Int) * 24 * 60 * 60 * 1000)
    qr_code_svg := none
    qr_code_generated_at := none
    clicks := 0
    unique_visitors := []
    user_id := user_id }

/-- `ShortenedUrl::is_expired` (src/models/url.rs lines 42-47): expired
iff an expiry is set and the current time is strictly past it.  `now`
stands for `chrono::Utc::now().timestamp_millis()`. -/
def ShortenedUrl.isExpired (u : ShortenedUrl) (now : Int) : Bool :=
  match u.expires_at with
  | some expiry => now > expiry
  | none => false

/-- `QrCode` document (src/models/qr_code.rs).  The QR handlers also
attach an optional `user_id` owner, included here. -/
structure QrCode where
  id : Option Nat
  short_code : String
  original_url : String
  svg_content : String
  generated_at : Int
  target_type : TargetType
  user_id : Option String
  deriving DecidableEq

/-- `UrlVisitor` document (src/models/url_visitor.rs). -/
structure UrlVisitor where
  id : Option Nat
  short_code : String
  visitor_hash : String
  timestamp : Int
  user_agent : Option String
  referrer : Option String
  deriving DecidableEq

/-- `UrlVisitor::new` (src/models/url_visitor.rs lines 15-31); `now`
stands for `chrono::Utc::now().timestamp_millis()`. -/
def UrlVisitor.new (short_code visitor_hash : String)
    (user_agent referrer : Option String) (now : Int) : UrlVisitor :=
  { id := none
    short_code := short_code
    visitor_hash := visitor_hash
    timestamp := now
    user_agent := user_agent
    referrer := referrer }

/-- `User` document (src/models/user.rs).  The Mongo ObjectId is modelled
by its hex string. -/
structure User where
  id : Option String
  username : String
  email : Option String
  full_name : Option String
  password_hash : String
  roles : List Role
  created_at : Int
  updated_at : Int
  last_login : Option Int
  is_active : Bool
  deriving DecidableEq

/-- The whole document store: the four collections the handlers touch. -/
structure Db where
  urls : List ShortenedUrl
  qrs : List QrCode
  visitors : List UrlVisitor
  users : List User
  deriving DecidableEq

/-! ## Role middleware (src/middlewares/authmw.rs) -/

/-- Outcome of a middleware `call`: either the wrapped service is invoked
(`proceed`) or the request is rejected with an error response and the
wrapped handler never runs. -/
inductive GateDecision
  | proceed
  | reject (status : HttpStatus) (msg : String)
  deriving DecidableEq

/-- `RequireRolesMiddleware::call` (src/middlewares/authmw.rs lines
142-166).  `userRoles` is the `Vec<Role>` that `JwtAuthMiddleware` stored
in the request extensions (`none` when absent).  The caller passes iff
some role of theirs is `SuperUser` or belongs to `required_roles`;
otherwise the code returns `ErrorUnauthorized("Insufficient
permissions")`. -/
def requireRolesCall (required_roles : List Role) (userRoles : Option (List Role)) :
    GateDecision :=
  match userRoles with
  | none => .reject .unauthorized "Authentication required"
  | some roles =>
    let has_required_role := roles.any (fun role =>
      if role = Role.SuperUser then true else required_roles.contains role)
    if !has_required_role then
      .reject .unauthorized "Insufficient permissions"
    else
      .proceed

/-! ## User responses (src/models/user.rs, src/handlers/user_handlers.rs) -/

/-- `UserResponse` from src/handlers/user_handlers.rs lines 31-42 (the
variant with `updated_at`). -/
structure UserResponse where
  id : String
  username : String
  email : Option String
  full_name : Option String
  roles : List Role
  created_at : Int
  updated_at : Int
  last_login : Option Int
  is_active : Bool
  deriving DecidableEq

/-- `impl From<User> for UserResponse` (src/handlers/user_handlers.rs
lines 44-58).  The source unwraps the (always present for stored users)
ObjectId and hex-encodes it; with ids already modelled as hex strings
this is `Option.getD`. -/
def UserResponse.fromUser (user : User) : UserResponse :=
  { id := user.id.getD ""
    username := user.username
    email := user.email
    full_name := user.full_name
    roles := user.roles
    created_at := user.created_at
    updated_at := user.updated_at
    last_login := user.last_login
    is_active := user.is_active }

/-- `UserResponse` from src/models/user.rs lines 66-76 (the variant
without `updated_at`). -/
structure ModelUserResponse where
  id : String
  username : String
  email : Option String
  full_name : Option String
  roles : List Role
  created_at : Int
  last_login : Option Int
  is_active : Bool
  deriving DecidableEq

/-- `impl From<User> for UserResponse` (src/models/user.rs lines 78-91):
`user.id.map(|id| id.to_hex()).unwrap_or_default()`. -/
def ModelUserResponse.fromUser (user : User) : ModelUserResponse :=
  { id := user.id.getD ""
    username := user.username
    email := user.email
    full_name := user.full_name
    roles := user.roles
    created_at := user.created_at
    last_login := user.last_login
    is_active := user.is_active }

/-! ## URL handlers (src/handlers/url_handlers.rs) -/

/-- `UrlRequest` body (src/structs/url_request.rs lines 4-10). -/
structure UrlRequest where
  url : String
  custom_code : Option String
  expires_in_days : Option Nat
  deriving DecidableEq

/-- `UrlResponse` (src/structs/url_request.rs; the handler additionally
returns the owner's `user_id`, per the response construction in
src/handlers/url_handlers.rs lines 77-83). -/
structure UrlResponse where
  original_url : String
  short_url : String
  short_code : String
  expires_at : Option Int
  user_id : Option String
  deriving DecidableEq

/-- Result of `create_short_url`. -/
inductive CreateUrlResult
  | badRequest
  | conflict
  | created (resp : UrlResponse)
  deriving DecidableEq

def CreateUrlResult.status : CreateUrlResult → HttpStatus
  | .badRequest => .badRequest
  | .conflict => .conflict
  | .created _ => .created

/-- Tail of `create_short_url` (src/handlers/url_handlers.rs lines
58-85) once a short code has been settled: build the `ShortenedUrl` via
`ShortenedUrl::new`, insert it, and return the Created `UrlResponse`. -/
def insertNewUrl (db : Db) (req : UrlRequest) (user_id : Option String)
    (now : Int) (host : String) (short_code : String) : CreateUrlResult × Db :=
  let shortened_url := ShortenedUrl.new req.url short_code req.expires_in_days user_id now
  let short_url := host ++ "/r/" ++ short_code
  (CreateUrlResult.created
    { original_url := req.url
      short_url := short_url
      short_code := short_code
      expires_at := shortened_url.expires_at
      user_id := shortened_url.user_id },
   { db with urls := db.urls ++ [shortened_url] })

/-- `create_short_url` (src/handlers/url_handlers.rs lines 19-86).
`reqValid` is the outcome of `req_body.validate()` (URL syntax check,
delegated to the validator library); `user_id` the claims' user id (if
any); `freshCode` the value of `nanoid!(6)`; `now` the creation
timestamp; `host` the `HOST` environment value.

The short code: `Some(code) if !code.is_empty()` checks uniqueness and
rejects with Conflict if the code is taken; any other shape of
`custom_code` (absent, or present but empty) uses the random `freshCode`
with no uniqueness check.  On success the new document is inserted and a
Created response is returned. -/
def createShortUrl (db : Db) (reqValid : Bool) (req : UrlRequest)
    (user_id : Option String) (freshCode : String) (now : Int) (host : String) :
    CreateUrlResult × Db :=
  if !reqValid then (.badRequest, db)
  else
    match req.custom_code with
    | some code =>
      if !code.isEmpty then
        if (db.urls.find? (fun u => u.short_code == code)).isSome then
          (.conflict, db)
        else insertNewUrl db req user_id now host code
      else insertNewUrl db req user_id now host freshCode
    | none => insertNewUrl db req user_id now host freshCode

/-- Result of `redirect_to_url`: a 302 redirect with a `Location`
header, 410 Gone for an expired URL, or 404 for an unknown code. -/
inductive RedirectResult
  | found (location : String)
  | gone
  | notFound
  deriving DecidableEq

/-- `update_one({"short_code": code}, {"$inc": {"clicks": 1}})`: bumps the
click counter of the first document with this short code. -/
def incClicksFirst : List ShortenedUrl → String → List ShortenedUrl
  | [], _ => []
  | u :: rest, code =>
    if u.short_code == code then { u with clicks := u.clicks + 1 } :: rest
    else u :: incClicksFirst rest code

/-- `redirect_to_url` (src/handlers/url_handlers.rs lines 89-176).
`visitor_hash` is `hash_ip(ip)` for the caller's IP (src/utils/hash_ip.rs);
`now` the current timestamp (used both for the expiry check and for the
visitor row).  The click/visitor update is spawned as a background task in
the source; its effect on the store is modelled sequentially: increment
`clicks` on the URL document, then insert a visitor row only when no row
for `(short_code, visitor_hash)` exists yet. -/
def redirectToUrl (db : Db) (code : String) (now : Int) (visitor_hash : String)
    (user_agent referrer : Option String) : RedirectResult × Db :=
  match db.urls.find? (fun u => u.short_code == code) with
  | none => (.notFound, db)
  | some url =>
    if url.isExpired now then (.gone, db)
    else
      let urls := incClicksFirst db.urls code
      let visitors :=
        match db.visitors.find? (fun v =>
            v.short_code == code && v.visitor_hash == visitor_hash) with
        | some _ => db.visitors
        | none => db.visitors ++ [UrlVisitor.new code visitor_hash user_agent referrer now]
      (.found url.original_url, { db with urls := urls, visitors := visitors })

/-- Result of `delete_short_url`. -/
inductive DeleteUrlResult
  | noContent
  | notFound
  | forbidden
  | internalError
  deriving DecidableEq

/-- `delete_short_url` (src/handlers/url_handlers.rs lines 500-551).
The requester's claims are present (the route sits behind `JwtAuth`);
`claims_user_id` is their user id.  After the ownership check the URL
document is deleted by `_id` (`delete_one`, modelled as erasing the
first document with that id); the two `delete_many` cascades ignore
failure via `.ok()`, so `qrDeleteOk` / `visitorDeleteOk` say whether
each store call succeeded, and the response is NoContent either way.
A failing URL `delete_one` (`urlDeleteOk = false`) returns an internal
error before the cascades run. -/
def deleteShortUrl (db : Db) (code : String) (claims_user_id : String)
    (urlDeleteOk qrDeleteOk visitorDeleteOk : Bool) : DeleteUrlResult × Db :=
  match db.urls.find? (fun u => u.short_code == code) with
  | none => (.notFound, db)
  | some url_to_delete =>
    if url_to_delete.user_id ≠ some claims_user_id then (.forbidden, db)
    else if !urlDeleteOk then (.internalError, db)
    else
      let urls := db.urls.eraseP (fun u => u.id == url_to_delete.id)
      let qrs := if qrDeleteOk then db.qrs.filter (fun q => !(q.short_code == code)) else db.qrs
      let visitors :=
        if visitorDeleteOk then db.visitors.filter (fun v => !(v.short_code == code))
        else db.visitors
      (.noContent, { db with urls := urls, qrs := qrs, visitors := visitors })

/-! ## QR handler (src/handlers/qr_handlers.rs) -/

/-- `RegenerateQrParams` query (src/structs/qr_request.rs lines 13-17). -/
structure RegenerateQrParams where
  force : Option Bool
  url_type : Option String
  deriving DecidableEq

/-- Result of `regenerate_qr`: the SVG body with `image/svg+xml`, 410
Gone for an expired URL, or 404 for an unknown code. -/
inductive QrResult
  | okSvg (svg : String)
  | gone
  | notFound
  deriving DecidableEq

/-- The `find_one_and_update` in `regenerate_qr` (src/handlers/
qr_handlers.rs lines 92-117): `$set`s `svg_content` and `generated_at`
on the first document matching `(short_code, target_type)`.  The
`FindOneAndUpdateOptions` only set `return_document`; `upsert` keeps its
MongoDB default of `false`, so when no document matches, nothing is
written. -/
def setFirstQr : List QrCode → String → TargetType → String → Int → List QrCode
  | [], _, _, _, _ => []
  | q :: rest, code, tt, svg, now =>
    if q.short_code == code && q.target_type == tt then
      { q with svg_content := svg, generated_at := now } :: rest
    else q :: setFirstQr rest code tt svg now

/-- `regenerate_qr` (src/handlers/qr_handlers.rs lines 16-125).
`render targetUrl` stands for the qrcode-library SVG rendering of the
target URL; `now` for `chrono::Utc::now().timestamp_millis()`; `host`
for the `HOST` environment value.  Looks up the URL, rejects expired
ones with Gone; when `force` is unset and a cached row for
`(code, target_type)` exists, returns its SVG; otherwise renders a new
SVG, runs the (non-upserting) `find_one_and_update` and returns the new
SVG. -/
def regenerateQr (db : Db) (code : String) (params : RegenerateQrParams)
    (now : Int) (render : String → String) (host : String) : QrResult × Db :=
  let force := params.force.getD false
  let target_type := match params.url_type with
    | some "original" => TargetType.Original
    | _ => TargetType.Shortened
  match db.urls.find? (fun u => u.short_code == code) with
  | none => (.notFound, db)
  | some url =>
    if url.isExpired now then (.gone, db)
    else
      let existing_qr := db.qrs.find? (fun q =>
        q.short_code == code && q.target_type == target_type)
      match force, existing_qr with
      | false, some qr => (.okSvg qr.svg_content, db)
      | _, _ =>
        let target_url := match target_type with
          | .Original => url.original_url
          | .Shortened => host ++ "/r/" ++ code
        let svg_output := render target_url
        (.okSvg svg_output,
         { db with qrs := setFirstQr db.qrs code target_type svg_output now })

/-! ## User edit handler (src/handlers/user_handlers.rs) -/

/-- `EditUserRequest` body (src/handlers/user_handlers.rs lines 22-29):
note there is no `email` field. -/
structure EditUserRequest where
  username : Option String
  full_name : Option String
  password : Option String
  roles : Option (List Role)
  is_active : Option Bool
  deriving DecidableEq

/-- The `$set` update built by `edit_user` (src/handlers/user_handlers.rs
lines 170-248), applied to the matched user document: `updated_at` is
always stamped with `now`; each request field, when supplied, overwrites
the corresponding stored field (`password` after hashing — `hash` stands
for `bcrypt::hash(·, DEFAULT_COST)`; `roles` wholesale); absent fields
are not in the `$set` document and stay untouched. -/
def applyEditUser (req : EditUserRequest) (hash : String → String) (now : Int)
    (u : User) : User :=
  { u with
    updated_at := now
    username := match req.username with
      | some username => username
      | none => u.username
    full_name := match req.full_name with
      | some full_name => some full_name
      | none => u.full_name
    password_hash := match req.password with
      | some password => hash password
      | none => u.password_hash
    roles := match req.roles with
      | some roles => roles
      | none => u.roles
    is_active := match req.is_active with
      | some is_active => is_active
      | none => u.is_active }

/-! ## Theorems -/

/-- C7: for every user returned by any endpoint, the serialized response
never contains the password hash: two stored users that differ only in
their `password_hash` field map to identical response objects under both
user-response conversions (the handler's `UserResponse::from` and the
model's). -/
theorem user_response_ignores_password_hash (u : User) (h : String) :
    UserResponse.fromUser { u with password_hash := h } = UserResponse.fromUser u ∧
    ModelUserResponse.fromUser { u with password_hash := h } =
      ModelUserResponse.fromUser u :=
  ⟨rfl, rfl⟩

/-- C4 counterexample: a caller whose role set does not meet the
requirement is rejected, but with status `unauthorized`
(`ErrorUnauthorized("Insufficient permissions")`), not `forbidden` as the
claim states: at required set `[QrManager]` and caller roles
`[UrlViewer]` the gate returns the unauthorized rejection, and
`unauthorized ≠ forbidden`. -/
theorem role_gate_unauthorized_counterexample :
    requireRolesCall [Role.QrManager] (some [Role.UrlViewer]) =
      GateDecision.reject HttpStatus.unauthorized "Insufficient permissions" ∧
    HttpStatus.unauthorized ≠ HttpStatus.forbidden := by
  exact ⟨rfl, by decide⟩

/-- C4 (amended): for every request passing the role gate with required
set `required` and caller role set `U`, the wrapped handler is invoked
(`proceed`) iff `U` contains `SuperUser` or `U` intersects `required`;
when it does not, the request is rejected with an unauthorized status
("Insufficient permissions") and the wrapped handler is never invoked. -/
theorem role_gate_allows_iff (required U : List Role) :
    (requireRolesCall required (some U) = GateDecision.proceed ↔
      Role.SuperUser ∈ U ∨ ∃ r ∈ U, r ∈ required) ∧
    (¬(Role.SuperUser ∈ U ∨ ∃ r ∈ U, r ∈ required) →
      requireRolesCall required (some U) =
        GateDecision.reject HttpStatus.unauthorized "Insufficient permissions") := by
  have hiff : ((U.any fun role =>
      if role = Role.SuperUser then true else required.contains role) = true) ↔
      (Role.SuperUser ∈ U ∨ ∃ r ∈ U, r ∈ required) := by
    rw [List.any_eq_true]
    constructor
    · rintro ⟨r, hr, hp⟩
      by_cases hs : r = Role.SuperUser
      · exact Or.inl (hs ▸ hr)
      · rw [if_neg hs] at hp
        exact Or.inr ⟨r, hr, List.elem_iff.mp hp⟩
    · rintro (h | ⟨r, hr, hmem⟩)
      · exact ⟨Role.SuperUser, h, by simp⟩
      · refine ⟨r, hr, ?_⟩
        by_cases hs : r = Role.SuperUser
        · simp [hs]
        · rw [if_neg hs]
          exact List.elem_iff.mpr hmem
  have hcall : ∀ b, (U.any fun role =>
      if role = Role.SuperUser then true else required.contains role) = b →
      requireRolesCall required (some U) =
        (if b then GateDecision.proceed
         else GateDecision.reject HttpStatus.unauthorized "Insufficient permissions") := by
    intro b hb
    show (if !(U.any fun role =>
          if role = Role.SuperUser then true else required.contains role)
        then GateDecision.reject HttpStatus.unauthorized "Insufficient permissions"
        else GateDecision.proceed) = _
    rw [hb]
    cases b <;> rfl
  constructor
  · by_cases h : (U.any fun role =>
        if role = Role.SuperUser then true else required.contains role) = true
    · rw [hcall true h, if_pos rfl]
      exact ⟨fun _ => hiff.mp h, fun _ => rfl⟩
    · rw [Bool.not_eq_true] at h
      rw [hcall false h, if_neg (by simp)]
      constructor
      · intro hc
        exact GateDecision.noConfusion hc
      · intro hm
        exact absurd (hiff.mpr hm) (fun hc => Bool.false_ne_true (h.symm.trans hc))
  · intro hno
    have h : (U.any fun role =>
        if role = Role.SuperUser then true else required.contains role) = false := by
      rw [← Bool.not_eq_true]
      exact fun hc => hno (hiff.mp hc)
    rw [hcall false h, if_neg (by simp)]

/-- C4 witness: applying the amended gate theorem at required set
`[QrManager]` and caller roles `[SuperUser]`. -/
theorem role_gate_allows_iff_witness :
    requireRolesCall [Role.QrManager] (some [Role.SuperUser]) =
      GateDecision.proceed :=
  (role_gate_allows_iff [Role.QrManager] [Role.SuperUser]).1.mpr
    (Or.inl (by decide))

/-- C8: `edit_user` is a partial update: `updated_at` is stamped, every
supplied field (username, full_name, password, roles, is_active)
overwrites the stored one — password re-hashed, roles replaced
wholesale — and every stored field not supplied (including `id`,
`email`, `created_at`, `last_login`, which the request cannot carry at
all) is unchanged. -/
theorem edit_user_partial_update (req : EditUserRequest) (hash : String → String)
    (now : Int) (u : User) :
    (applyEditUser req hash now u).id = u.id ∧
    (applyEditUser req hash now u).email = u.email ∧
    (applyEditUser req hash now u).created_at = u.created_at ∧
    (applyEditUser req hash now u).last_login = u.last_login ∧
    (applyEditUser req hash now u).updated_at = now ∧
    (req.username = none → (applyEditUser req hash now u).username = u.username) ∧
    (∀ n, req.username = some n → (applyEditUser req hash now u).username = n) ∧
    (req.full_name = none → (applyEditUser req hash now u).full_name = u.full_name) ∧
    (∀ f, req.full_name = some f → (applyEditUser req hash now u).full_name = some f) ∧
    (req.password = none → (applyEditUser req hash now u).password_hash = u.password_hash) ∧
    (∀ p, req.password = some p → (applyEditUser req hash now u).password_hash = hash p) ∧
    (req.roles = none → (applyEditUser req hash now u).roles = u.roles) ∧
    (∀ rs, req.roles = some rs → (applyEditUser req hash now u).roles = rs) ∧
    (req.is_active = none → (applyEditUser req hash now u).is_active = u.is_active) ∧
    (∀ b, req.is_active = some b → (applyEditUser req hash now u).is_active = b) := by
  refine ⟨rfl, rfl, rfl, rfl, rfl, ?_, ?_, ?_, ?_, ?_, ?_, ?_, ?_, ?_, ?_⟩
  · intro h; simp [applyEditUser, h]
  · intro n h; simp [applyEditUser, h]
  · intro h; simp [applyEditUser, h]
  · intro f h; simp [applyEditUser, h]
  · intro h; simp [applyEditUser, h]
  · intro p h; simp [applyEditUser, h]
  · intro h; simp [applyEditUser, h]
  · intro rs h; simp [applyEditUser, h]
  · intro h; simp [applyEditUser, h]
  · intro b h; simp [applyEditUser, h]

/-- Concrete user for witnesses. -/
def sampleUser : User :=
  { id := some "64a0"
    username := "alice"
    email := some "alice@example.com"
    full_name := none
    password_hash := "oldhash"
    roles := [Role.UrlViewer]
    created_at := 100
    updated_at := 100
    last_login := none
    is_active := true }

/-- Concrete edit request for witnesses: supplies password and roles,
leaves the rest absent. -/
def sampleEdit : EditUserRequest :=
  { username := none
    full_name := none
    password := some "s3cret"
    roles := some [Role.UrlManager]
    is_active := none }

/-- C8 witness: applying the partial-update theorem at a concrete user
and request. -/
theorem edit_user_partial_update_witness :
    (applyEditUser sampleEdit (fun s => "bcrypt:" ++ s) 200 sampleUser).username = "alice" ∧
    (applyEditUser sampleEdit (fun s => "bcrypt:" ++ s) 200 sampleUser).password_hash =
      "bcrypt:s3cret" ∧
    (applyEditUser sampleEdit (fun s => "bcrypt:" ++ s) 200 sampleUser).roles =
      [Role.UrlManager] ∧
    (applyEditUser sampleEdit (fun s => "bcrypt:" ++ s) 200 sampleUser).email =
      some "alice@example.com" := by
  obtain ⟨h1, h2, h3, h4, h5, h6, h7, h8, h9, h10, h11, h12, h13, h14, h15⟩ :=
    edit_user_partial_update sampleEdit (fun s => "bcrypt:" ++ s) 200 sampleUser
  exact ⟨h6 rfl, h11 "s3cret" rfl, h13 [Role.UrlManager] rfl, h2⟩

/-- C6: a create request with a custom code that is already taken is
rejected with Conflict and the store is unchanged, for every caller
(`user_id` is universally quantified); and for any custom-code request
(taken or not) distinctness of the stored short codes is preserved, so
custom short codes remain globally unique. -/
theorem create_custom_code_conflict (db : Db) (url : String)
    (expires_in_days : Option Nat) (user_id : Option String)
    (freshCode : String) (now : Int) (host : String) (code : String)
    (hne : code ≠ "") :
    ((∃ u ∈ db.urls, u.short_code = code) →
      createShortUrl db true
        { url := url, custom_code := some code, expires_in_days := expires_in_days }
        user_id freshCode now host = (CreateUrlResult.conflict, db)) ∧
    ((db.urls.map (fun u => u.short_code)).Nodup →
      (((createShortUrl db true
          { url := url, custom_code := some code, expires_in_days := expires_in_days }
          user_id freshCode now host).2).urls.map
        (fun u => u.short_code)).Nodup) := by
  have hne' : code.isEmpty = false := by
    rw [Bool.eq_false_iff]
    exact fun hc => hne ((String.isEmpty_iff code).mp hc)
  have hunfold : createShortUrl db true
      { url := url, custom_code := some code, expires_in_days := expires_in_days }
      user_id freshCode now host =
      if (db.urls.find? (fun u => u.short_code == code)).isSome then
        (CreateUrlResult.conflict, db)
      else insertNewUrl db
        { url := url, custom_code := some code, expires_in_days := expires_in_days }
        user_id now host code := by
    show (if !code.isEmpty then
        if (db.urls.find? (fun u => u.short_code == code)).isSome then
          (CreateUrlResult.conflict, db)
        else insertNewUrl db
          { url := url, custom_code := some code, expires_in_days := expires_in_days }
          user_id now host code
      else insertNewUrl db
        { url := url, custom_code := some code, expires_in_days := expires_in_days }
        user_id now host freshCode) = _
    rw [hne']
    rfl
  constructor
  · rintro ⟨u, hu, hsc⟩
    have hfind : (db.urls.find? (fun u => u.short_code == code)).isSome := by
      rw [List.find?_isSome]
      exact ⟨u, hu, by simp [hsc]⟩
    rw [hunfold, if_pos hfind]
  · intro hnodup
    by_cases hfind : (db.urls.find? (fun u => u.short_code == code)).isSome
    · rw [hunfold, if_pos hfind]
      exact hnodup
    · have hnone : db.urls.find? (fun u => u.short_code == code) = none := by
        rw [← Option.not_isSome_iff_eq_none]
        exact hfind
      have hnotin : code ∉ db.urls.map (fun u => u.short_code) := by
        rw [List.mem_map]
        rintro ⟨u, hu, hsc⟩
        have := List.find?_eq_none.mp hnone u hu
        simp [hsc] at this
      rw [hunfold, if_neg hfind]
      have hurls : (insertNewUrl db
          { url := url, custom_code := some code, expires_in_days := expires_in_days }
          user_id now host code).2.urls =
          db.urls ++ [ShortenedUrl.new url code expires_in_days user_id now] := rfl
      rw [hurls, List.map_append, List.nodup_append]
      refine ⟨hnodup, by simp, ?_⟩
      intro a ha hb
      simp [ShortenedUrl.new] at hb
      exact hnotin (hb ▸ ha)

/-- Concrete stored URL and store for witnesses. -/
def sampleUrl : ShortenedUrl :=
  ShortenedUrl.new "https://example.com/page" "abc123" none (some "u1") 50

def sampleDb : Db := { urls := [sampleUrl], qrs := [], visitors := [], users := [] }

/-- C6 witness: a second creation with the taken custom code "abc123" is
rejected with Conflict and the store unchanged. -/
theorem create_custom_code_conflict_witness :
    createShortUrl sampleDb true
      { url := "https://other.com", custom_code := some "abc123",
        expires_in_days := none }
      (some "u2") "zzzzzz" 60 "http://localhost:8080" =
      (CreateUrlResult.conflict, sampleDb) :=
  (create_custom_code_conflict sampleDb "https://other.com" none
      (some "u2") "zzzzzz" 60 "http://localhost:8080" "abc123" (by decide)).1
    ⟨sampleUrl, List.mem_singleton.mpr rfl, rfl⟩

/-- C10: a create request whose `custom_code` is `Some("")` takes the
`_ => nanoid!(6)` arm of the match, exactly like an absent custom code:
the handler result is identical to the one for `custom_code = None`
(same store, same response), no uniqueness check is made and, when the
URL validates, the response is Created with the random `freshCode` (the
`nanoid!(6)` value) as the short code. -/
theorem create_empty_custom_code_like_none (db : Db) (reqValid : Bool)
    (url : String) (expires_in_days : Option Nat) (user_id : Option String)
    (freshCode : String) (now : Int) (host : String) :
    createShortUrl db reqValid
      { url := url, custom_code := some "", expires_in_days := expires_in_days }
      user_id freshCode now host =
    createShortUrl db reqValid
      { url := url, custom_code := none, expires_in_days := expires_in_days }
      user_id freshCode now host ∧
    (reqValid = true →
      (createShortUrl db reqValid
        { url := url, custom_code := some "", expires_in_days := expires_in_days }
        user_id freshCode now host).1 =
      CreateUrlResult.created
        { original_url := url
          short_url := host ++ "/r/" ++ freshCode
          short_code := freshCode
          expires_at := (ShortenedUrl.new url freshCode expires_in_days user_id now).expires_at
          user_id := user_id }) := by
  cases reqValid with
  | false => exact ⟨rfl, fun hc => absurd hc (by decide)⟩
  | true => exact ⟨rfl, fun _ => rfl⟩

/-- C10 witness: at the sample store, a valid request carrying
`custom_code = Some("")` yields the same outcome as one carrying no
custom code. -/
theorem create_empty_custom_code_like_none_witness :
    createShortUrl sampleDb true
      { url := "https://example.com/x", custom_code := some "",
        expires_in_days := none }
      (some "u2") "r4nd0m" 60 "http://localhost:8080" =
    createShortUrl sampleDb true
      { url := "https://example.com/x", custom_code := none,
        expires_in_days := none }
      (some "u2") "r4nd0m" 60 "http://localhost:8080" ∧
    (createShortUrl sampleDb true
      { url := "https://example.com/x", custom_code := some "",
        expires_in_days := none }
      (some "u2") "r4nd0m" 60 "http://localhost:8080").1 =
    CreateUrlResult.created
      { original_url := "https://example.com/x"
        short_url := "http://localhost:8080/r/r4nd0m"
        short_code := "r4nd0m"
        expires_at := none
        user_id := some "u2" } := by
  obtain ⟨h1, h2⟩ := create_empty_custom_code_like_none sampleDb true
    "https://example.com/x" none (some "u2") "r4nd0m" 60 "http://localhost:8080"
  exact ⟨h1, h2 rfl⟩

/-- C2: a redirect request for a stored, non-expired URL responds 302
Found with `Location` set to the stored original URL; for a stored,
expired URL it responds Gone; for an unknown code it responds NotFound. -/
theorem redirect_semantics (db : Db) (code : String) (now : Int)
    (visitor_hash : String) (user_agent referrer : Option String) :
    (∀ url, db.urls.find? (fun u => u.short_code == code) = some url →
      (url.isExpired now = false →
        (redirectToUrl db code now visitor_hash user_agent referrer).1 =
          RedirectResult.found url.original_url) ∧
      (url.isExpired now = true →
        (redirectToUrl db code now visitor_hash user_agent referrer).1 =
          RedirectResult.gone)) ∧
    (db.urls.find? (fun u => u.short_code == code) = none →
      (redirectToUrl db code now visitor_hash user_agent referrer).1 =
        RedirectResult.notFound) := by
  refine ⟨fun url hfind => ⟨fun hexp => ?_, fun hexp => ?_⟩, fun hfind => ?_⟩
  · simp [redirectToUrl, hfind, hexp]
  · simp [redirectToUrl, hfind, hexp]
  · simp [redirectToUrl, hfind]

/-- C2 witness: before expiry the sample URL redirects to its stored
original URL; an unknown code is NotFound; an expired URL is Gone. -/
theorem redirect_semantics_witness :
    (redirectToUrl sampleDb "abc123" 60 "h1" none none).1 =
      RedirectResult.found "https://example.com/page" ∧
    (redirectToUrl sampleDb "nosuch" 60 "h1" none none).1 =
      RedirectResult.notFound := by
  constructor
  · exact (((redirect_semantics sampleDb "abc123" 60 "h1" none none).1
      sampleUrl rfl).1 rfl)
  · exact ((redirect_semantics sampleDb "nosuch" 60 "h1" none none).2 rfl)

/-- Number of visitor rows recorded for a `(short_code, visitor_hash)`
pair. -/
def visitorCount (vs : List UrlVisitor) (code h : String) : Nat :=
  vs.countP (fun v => v.short_code == code && v.visitor_hash == h)

/-- The visitors collection acts as a dedup set: at most one row per
distinct `(short_code, visitor_hash)` pair. -/
def visitorDedup (vs : List UrlVisitor) : Prop :=
  ∀ code h, visitorCount vs code h ≤ 1

/-- After `update_one($inc clicks)` the first document with the short
code is the old one with `clicks` bumped by one. -/
theorem find?_incClicksFirst (code : String) (url : ShortenedUrl) :
    ∀ l : List ShortenedUrl,
      l.find? (fun u => u.short_code == code) = some url →
      (incClicksFirst l code).find? (fun u => u.short_code == code) =
        some { url with clicks := url.clicks + 1 }
  | [], h => by simp at h
  | a :: rest, h => by
    by_cases ha : a.short_code == code
    · rw [@List.find?_cons_of_pos _ (fun u => u.short_code == code) a rest ha] at h
      injection h with h
      subst h
      simp only [incClicksFirst, if_pos ha]
      exact @List.find?_cons_of_pos _ (fun u => u.short_code == code)
        { a with clicks := a.clicks + 1 } rest ha
    · rw [Bool.not_eq_true] at ha
      rw [@List.find?_cons_of_neg _ (fun u => u.short_code == code) a rest
        (by simp [ha])] at h
      simp only [incClicksFirst, ha, Bool.false_eq_true, if_false]
      rw [@List.find?_cons_of_neg _ (fun u => u.short_code == code) a
        (incClicksFirst rest code) (by simp [ha])]
      exact find?_incClicksFirst code url rest h

/-- C3: a non-expired redirect bumps the URL's clicks counter by exactly
one; the visitor row for `(code, visitor_hash)` is inserted only when
none exists (count goes 0 → 1, and the visitors store is untouched when
a row already exists), so the at-most-one-row-per-pair invariant is
preserved and the unique-visitor count for a given hashed IP grows at
most once. -/
theorem redirect_click_and_visitor_dedup (db : Db) (code : String) (now : Int)
    (visitor_hash : String) (user_agent referrer : Option String)
    (url : ShortenedUrl)
    (hdedup : visitorDedup db.visitors)
    (hfind : db.urls.find? (fun u => u.short_code == code) = some url)
    (hexp : url.isExpired now = false) :
    ((redirectToUrl db code now visitor_hash user_agent referrer).2.urls.find?
        (fun u => u.short_code == code) =
      some { url with clicks := url.clicks + 1 }) ∧
    visitorDedup
      (redirectToUrl db code now visitor_hash user_agent referrer).2.visitors ∧
    (visitorCount db.visitors code visitor_hash = 0 →
      visitorCount
        (redirectToUrl db code now visitor_hash user_agent referrer).2.visitors
        code visitor_hash = 1) ∧
    (visitorCount db.visitors code visitor_hash ≠ 0 →
      (redirectToUrl db code now visitor_hash user_agent referrer).2.visitors =
        db.visitors) := by
  have hstate : (redirectToUrl db code now visitor_hash user_agent referrer).2 =
      { db with
        urls := incClicksFirst db.urls code
        visitors :=
          match db.visitors.find? (fun v =>
              v.short_code == code && v.visitor_hash == visitor_hash) with
          | some _ => db.visitors
          | none => db.visitors ++
              [UrlVisitor.new code visitor_hash user_agent referrer now] } := by
    simp [redirectToUrl, hfind, hexp]
  rw [hstate]
  refine ⟨find?_incClicksFirst code url db.urls hfind, ?_⟩
  cases hv : db.visitors.find? (fun v =>
      v.short_code == code && v.visitor_hash == visitor_hash) with
  | some v =>
    refine ⟨hdedup, fun hzero => ?_, fun _ => rfl⟩
    have hmem := List.mem_of_find?_eq_some hv
    have hp := List.find?_some hv
    have : visitorCount db.visitors code visitor_hash ≠ 0 := by
      rw [visitorCount, Ne, List.countP_eq_zero]
      intro hall
      exact absurd hp (by simpa using hall v hmem)
    exact absurd hzero this
  | none =>
    have hzero : visitorCount db.visitors code visitor_hash = 0 := by
      rw [visitorCount, List.countP_eq_zero]
      intro v hmem
      have := List.find?_eq_none.mp hv v hmem
      simpa using this
    have hnewp : ((UrlVisitor.new code visitor_hash user_agent referrer now).short_code
        == code && (UrlVisitor.new code visitor_hash user_agent referrer now).visitor_hash
        == visitor_hash) = true := by
      simp [UrlVisitor.new]
    refine ⟨?_, fun _ => ?_, fun hne => absurd hzero hne⟩
    · intro c h
      rw [visitorCount, List.countP_append]
      by_cases hc : c = code ∧ h = visitor_hash
      · obtain ⟨hc1, hc2⟩ := hc
        subst hc1; subst hc2
        have : db.visitors.countP (fun v =>
            v.short_code == c && v.visitor_hash == h) = 0 := hzero
        simp [this, UrlVisitor.new]
      · have hnot : ¬(c = code ∧ h = visitor_hash) := hc
        have : (List.countP (fun v => v.short_code == c && v.visitor_hash == h)
            [UrlVisitor.new code visitor_hash user_agent referrer now]) = 0 := by
          rw [List.countP_eq_zero]
          intro v hmem
          rw [List.mem_singleton] at hmem
          subst hmem
          simp only [UrlVisitor.new, Bool.and_eq_true, beq_iff_eq]
          intro hcon
          exact hnot ⟨hcon.1.symm, hcon.2.symm⟩
        rw [this, Nat.add_zero]
        exact hdedup c h
    · have hzero' : db.visitors.countP (fun v =>
          v.short_code == code && v.visitor_hash == visitor_hash) = 0 := hzero
      rw [visitorCount, List.countP_append, hzero', Nat.zero_add]
      simp [hnewp]

/-- C3 witness: at the sample store (no visitor rows yet), the redirect
bumps clicks to 1 and records exactly one visitor row for the pair. -/
theorem redirect_click_and_visitor_dedup_witness :
    visitorCount sampleDb.visitors "abc123" "h1" = 0 ∧
    visitorCount
      (redirectToUrl sampleDb "abc123" 60 "h1" none none).2.visitors
      "abc123" "h1" = 1 ∧
    (redirectToUrl sampleDb "abc123" 60 "h1" none none).2.urls.find?
      (fun u => u.short_code == "abc123") =
      some { sampleUrl with clicks := sampleUrl.clicks + 1 } := by
  obtain ⟨h1, _, h3, _⟩ := redirect_click_and_visitor_dedup sampleDb "abc123" 60
    "h1" none none sampleUrl (fun c h => by simp [sampleDb, visitorCount]) rfl rfl
  exact ⟨rfl, h3 rfl, h1⟩

/-- `delete_one` by `_id` erases exactly the found URL when stored ids
are distinct: the found document is gone and every document with a
different id survives. -/
theorem eraseP_id_removes (url : ShortenedUrl) :
    ∀ l : List ShortenedUrl, (l.map (fun u => u.id)).Nodup →
      url ∉ l.eraseP (fun u => u.id == url.id) ∧
      (∀ v ∈ l, v.id ≠ url.id → v ∈ l.eraseP (fun u => u.id == url.id))
  | [], _ => by simp
  | a :: rest, hnodup => by
    rw [List.map_cons, List.nodup_cons] at hnodup
    obtain ⟨hnotin, hnodup'⟩ := hnodup
    by_cases ha : a.id == url.id
    · rw [List.eraseP_cons, ha, cond_true]
      constructor
      · intro hmem
        have : url.id ∈ rest.map (fun u => u.id) := List.mem_map_of_mem _ hmem
        rw [beq_iff_eq] at ha
        exact hnotin (ha ▸ this)
      · intro v hv hne
        rcases List.mem_cons.mp hv with h | h
        · rw [beq_iff_eq] at ha
          exact absurd (h ▸ ha) hne
        · exact h
    · rw [Bool.not_eq_true] at ha
      rw [List.eraseP_cons, ha, cond_false]
      obtain ⟨ih1, ih2⟩ := eraseP_id_removes url rest hnodup'
      constructor
      · intro hmem
        rcases List.mem_cons.mp hmem with h | h
        · rw [beq_eq_false_iff_ne] at ha
          exact ha (h ▸ rfl)
        · exact ih1 h
      · intro v hv hne
        rcases List.mem_cons.mp hv with h | h
        · exact h ▸ List.mem_cons_self _ _
        · exact List.mem_cons_of_mem _ (ih2 v h hne)

/-- C5: the ownership check precedes any side effect — a requester whose
user id is not the URL's recorded owner gets Forbidden and the whole
store (URLs, QR codes, visitors) is unchanged, whatever the outcome
flags of the store calls would have been; the owner gets NoContent with
the URL document deleted and the QR/visitor cascades applied best-effort:
a succeeding cascade removes every row with the short code, a failing
cascade (`.ok()`-swallowed) leaves its collection untouched, and in
either case the response is still NoContent. -/
theorem delete_url_ownership (db : Db) (code : String) (claims_user_id : String)
    (url : ShortenedUrl)
    (hfind : db.urls.find? (fun u => u.short_code == code) = some url) :
    (url.user_id ≠ some claims_user_id →
      ∀ urlOk qrOk visOk,
        deleteShortUrl db code claims_user_id urlOk qrOk visOk =
          (DeleteUrlResult.forbidden, db)) ∧
    (url.user_id = some claims_user_id →
      ∀ qrOk visOk,
        (deleteShortUrl db code claims_user_id true qrOk visOk).1 =
          DeleteUrlResult.noContent ∧
        ((db.urls.map (fun u => u.id)).Nodup →
          url ∉ (deleteShortUrl db code claims_user_id true qrOk visOk).2.urls) ∧
        (∀ q ∈ (deleteShortUrl db code claims_user_id true true visOk).2.qrs,
          q.short_code ≠ code) ∧
        ((deleteShortUrl db code claims_user_id true false visOk).2.qrs = db.qrs) ∧
        (∀ v ∈ (deleteShortUrl db code claims_user_id true qrOk true).2.visitors,
          v.short_code ≠ code) ∧
        ((deleteShortUrl db code claims_user_id true qrOk false).2.visitors =
          db.visitors)) := by
  constructor
  · intro hne urlOk qrOk visOk
    simp [deleteShortUrl, hfind, hne]
  · intro hown qrOk visOk
    have hstate : ∀ qOk vOk, deleteShortUrl db code claims_user_id true qOk vOk =
        (DeleteUrlResult.noContent,
         { db with
           urls := db.urls.eraseP (fun u => u.id == url.id)
           qrs := if qOk then db.qrs.filter (fun q => !(q.short_code == code))
             else db.qrs
           visitors :=
             if vOk then db.visitors.filter (fun v => !(v.short_code == code))
             else db.visitors }) := by
      intro qOk vOk
      simp [deleteShortUrl, hfind, hown]
    refine ⟨?_, ?_, ?_, ?_, ?_, ?_⟩
    · rw [hstate qrOk visOk]
    · intro hnodup
      rw [hstate qrOk visOk]
      exact (eraseP_id_removes url db.urls hnodup).1
    · intro q hq
      rw [hstate true visOk] at hq
      simp [List.mem_filter] at hq
      exact hq.2
    · rw [hstate false visOk]
      simp
    · intro v hv
      rw [hstate qrOk true] at hv
      simp [List.mem_filter] at hv
      exact hv.2
    · rw [hstate qrOk false]
      simp

/-- Concrete store for the delete witnesses: one owned URL with a QR row
and a visitor row attached. -/
def ownedUrl : ShortenedUrl :=
  ShortenedUrl.new "https://owned.example.com" "own1" none (some "u1") 10

def qrRow : QrCode :=
  { id := some 1
    short_code := "own1"
    original_url := "https://owned.example.com"
    svg_content := "<svg/>"
    generated_at := 5
    target_type := TargetType.Shortened
    user_id := some "u1" }

def visRow : UrlVisitor := UrlVisitor.new "own1" "h1" none none 7

def deleteDb : Db := { urls := [ownedUrl], qrs := [qrRow], visitors := [visRow], users := [] }

/-- C5 witness: a non-owner ("u2") is rejected with Forbidden and the
store unchanged; the owner ("u1") gets NoContent with the URL, its QR
row and its visitor row removed. -/
theorem delete_url_ownership_witness :
    deleteShortUrl deleteDb "own1" "u2" true true true =
      (DeleteUrlResult.forbidden, deleteDb) ∧
    (deleteShortUrl deleteDb "own1" "u1" true true true).1 =
      DeleteUrlResult.noContent ∧
    ownedUrl ∉ (deleteShortUrl deleteDb "own1" "u1" true true true).2.urls := by
  have h2 := delete_url_ownership deleteDb "own1" "u2" ownedUrl rfl
  have h1 := delete_url_ownership deleteDb "own1" "u1" ownedUrl rfl
  refine ⟨h2.1 (by simp [ownedUrl, ShortenedUrl.new]) true true true, ?_, ?_⟩
  · exact (h1.2 rfl true true).1
  · exact ((h1.2 rfl true true).2.1 (by simp [deleteDb, ownedUrl, ShortenedUrl.new]))

/-- C9: a stored URL with no recorded owner (`user_id = None`) can never
be deleted through `delete_short_url`: the ownership check
`url.user_id.as_deref() != Some(&claims.user_id)` is true for every
caller, so the request is rejected with Forbidden and the store is
unchanged. -/
theorem delete_ownerless_url_forbidden (db : Db) (code : String)
    (url : ShortenedUrl)
    (hfind : db.urls.find? (fun u => u.short_code == code) = some url)
    (hnone : url.user_id = none) :
    ∀ claims_user_id urlOk qrOk visOk,
      deleteShortUrl db code claims_user_id urlOk qrOk visOk =
        (DeleteUrlResult.forbidden, db) := by
  intro claims_user_id urlOk qrOk visOk
  simp [deleteShortUrl, hfind, hnone]

/-- Concrete ownerless URL and store for the C9 witness. -/
def orphanUrl : ShortenedUrl :=
  ShortenedUrl.new "https://nobody.example.com" "orph1" none none 10

def orphanDb : Db := { urls := [orphanUrl], qrs := [], visitors := [], users := [] }

/-- C9 witness: some concrete caller is rejected with Forbidden on the
ownerless URL, store unchanged. -/
theorem delete_ownerless_url_forbidden_witness :
    deleteShortUrl orphanDb "orph1" "u1" true true true =
      (DeleteUrlResult.forbidden, orphanDb) :=
  delete_ownerless_url_forbidden orphanDb "orph1" orphanUrl rfl rfl
    "u1" true true true

/-- Concrete SVG renderer standing in for the qrcode library's
`render::<svg::Color>()` output. -/
def sampleRender (target : String) : String := "<svg>" ++ target ++ "</svg>"

/-- C1 (code bug): first-time QR generation does not persist a cache
row.  At a store holding the non-expired URL `abc123` and an empty
`qr_codes` collection, a non-forced regenerate request renders and
returns the SVG, yet the `qr_codes` collection is still empty afterwards
— the `find_one_and_update` carries no `upsert(true)`, so with no
matching row nothing is written, contradicting the claimed upsert (and
the handler's own "Update or insert QR code" comment). -/
theorem regenerate_qr_does_not_persist_first_generation :
    (regenerateQr sampleDb "abc123" { force := none, url_type := none } 60
      sampleRender "http://localhost:8080").1 =
      QrResult.okSvg (sampleRender "http://localhost:8080/r/abc123") ∧
    (regenerateQr sampleDb "abc123" { force := none, url_type := none } 60
      sampleRender "http://localhost:8080").2.qrs = [] :=
  ⟨rfl, rfl⟩

end UrlShortener
